import Mathlib

/-!
# ag-kernel execution engine: shallow embedding

Shallow embedding of the deterministic execution kernel of the ag-kernel
backtester (`core/engine.c`, `core/types.h`).  Quantities and the signed
position are 64-bit integers in micro-units in the source; prices are
integer tick counts.  Monetary values are IEEE-754 doubles in the source
and are modelled here as rationals (`ℚ`); integer fields are modelled as
`Int` (their magnitudes in every statement below stay far below 2^63, so
no wrap-around is dropped).  Each definition mirrors one C function of
`core/engine.c` and keeps its name.
-/

namespace AgKernel

/-- `side_t` from `core/types.h`: `SIDE_BUY = 0`, `SIDE_SELL = 1`. -/
inductive Side where
  | buy
  | sell
deriving DecidableEq, Repr

/-- `order_type_t` from `core/types.h`: `ORDER_TYPE_LIMIT = 0`, `ORDER_TYPE_MARKET = 1`. -/
inductive OrderType where
  | limit
  | market
deriving DecidableEq, Repr

/-- `tick_event_t` from `core/types.h`. -/
structure TickEvent where
  ts_ms : Int
  price_tick : Int
  qty : Int
  side : Side
deriving DecidableEq, Repr

/-- `order_t` from `core/types.h`.  `qty` is in micro-units (scaled by 1e6). -/
structure Order where
  order_id : Nat
  type : OrderType
  side : Side
  qty : Int
  price_tick : Int
deriving DecidableEq, Repr

/-- `config_t` from `core/types.h`.  All fields are doubles in the source. -/
structure Config where
  maker_fee_bps : ℚ
  taker_fee_bps : ℚ
  spread_bps : ℚ
  initial_cash : ℚ
  tick_size : ℚ
deriving DecidableEq, Repr

/-- `snapshot_t` from `core/types.h`.  `position` is the raw `int64_t`
field (micro-units): `engine_get_snapshot` copies `h->position` into it
without descaling. -/
structure Snapshot where
  ts_ms : Int
  cash : ℚ
  position : Int
  avg_entry_price : ℚ
  realized_pnl : ℚ
  unrealized_pnl : ℚ
  equity : ℚ
deriving DecidableEq, Repr

/-- `tracked_order_t` from `core/engine.c`. -/
structure TrackedOrder where
  order : Order
  active : Bool
deriving DecidableEq, Repr

/-- `MAX_OPEN_ORDERS` from `core/engine.c`. -/
def MAX_OPEN_ORDERS : Nat := 1024

/-- `struct engine_handle_s` from `core/engine.c`.  The fixed array
`orders[MAX_OPEN_ORDERS]` together with `order_count` is modelled as the
list of the first `order_count` slots; `engine_place_order` enforces
`order_count ≤ MAX_OPEN_ORDERS`. -/
structure EngineHandle where
  config : Config
  current_ts_ms : Int
  cash : ℚ
  position : Int
  avg_entry_price : ℚ
  realized_pnl : ℚ
  orders : List TrackedOrder
  last_tick_price : Int
deriving DecidableEq, Repr

/-- `calculate_unrealized_pnl` from `core/engine.c`. -/
def calculate_unrealized_pnl (h : EngineHandle) : ℚ :=
  if h.position = 0 then 0
  else
    let position_descaled : ℚ := (h.position : ℚ) / 1000000
    let position_value := position_descaled * (h.last_tick_price : ℚ) * h.config.tick_size
    let entry_value := position_descaled * h.avg_entry_price * h.config.tick_size
    position_value - entry_value

/-- `calculate_fee` from `core/engine.c`. -/
def calculate_fee (h : EngineHandle) (notional : ℚ) (is_maker : Bool) : ℚ :=
  let fee_bps := if is_maker then h.config.maker_fee_bps else h.config.taker_fee_bps
  notional * (fee_bps / 10000)

/-- `apply_spread` from `core/engine.c`.  The C code computes
`spread_ticks = price_tick * spread_bps / 10000` (no absolute value) and
adds `ceil(spread_ticks)` for buys, subtracts it for sells. -/
def apply_spread (h : EngineHandle) (price_tick : Int) (side : Side) : Int :=
  let spread_multiplier := h.config.spread_bps / 10000
  let spread_ticks := (price_tick : ℚ) * spread_multiplier
  match side with
  | Side.buy => price_tick + ⌈spread_ticks⌉
  | Side.sell => price_tick - ⌈spread_ticks⌉

/-- `execute_fill` from `core/engine.c`, branch for branch. -/
def execute_fill (h : EngineHandle) (order : Order) (fill_price_tick : Int) :
    EngineHandle :=
  let fill_qty := order.qty
  let fill_price : ℚ := (fill_price_tick : ℚ) * h.config.tick_size
  let notional := fill_price * ((fill_qty : ℚ) / 1000000)
  let fee := calculate_fee h notional false
  let old_position := h.position
  let new_position :=
    match order.side with
    | Side.buy => old_position + fill_qty
    | Side.sell => old_position - fill_qty
  let cash :=
    match order.side with
    | Side.buy => h.cash - (notional + fee)
    | Side.sell => h.cash + (notional - fee)
  if old_position = 0 then
    { h with cash := cash, position := new_position,
             avg_entry_price := (fill_price_tick : ℚ) }
  else if (old_position > 0 ∧ order.side = Side.buy) ∨
          (old_position < 0 ∧ order.side = Side.sell) then
    let old_value := (old_position : ℚ) * h.avg_entry_price
    let new_value := (fill_qty : ℚ) * (fill_price_tick : ℚ)
    { h with cash := cash, position := new_position,
             avg_entry_price := (old_value + new_value) / (new_position : ℚ) }
  else
    let qty_reducing := if |old_position| ≥ fill_qty then fill_qty else |old_position|
    let qty_reducing_descaled : ℚ := (qty_reducing : ℚ) / 1000000
    let exit_value := qty_reducing_descaled * (fill_price_tick : ℚ) * h.config.tick_size
    let entry_value := qty_reducing_descaled * h.avg_entry_price * h.config.tick_size
    let realized_pnl :=
      if old_position > 0 then h.realized_pnl + (exit_value - entry_value)
      else h.realized_pnl + (entry_value - exit_value)
    let avg_entry_price :=
      if new_position ≠ 0 ∧ ((old_position > 0 ∧ new_position < 0) ∨
                             (old_position < 0 ∧ new_position > 0)) then
        (fill_price_tick : ℚ)
      else if new_position = 0 then 0
      else h.avg_entry_price
    { h with cash := cash, position := new_position,
             avg_entry_price := avg_entry_price, realized_pnl := realized_pnl }

/-- `should_fill_order` from `core/engine.c`. -/
def should_fill_order (order : Order) (tick : TickEvent) : Bool :=
  if order.type = OrderType.market then true
  else
    match order.side with
    | Side.buy => tick.price_tick ≤ order.price_tick
    | Side.sell => tick.price_tick ≥ order.price_tick

/-- Fill price chosen inside the `engine_step_tick` loop: market orders
start from the tick price, limit orders from the order's limit price;
both then go through `apply_spread`. -/
def fill_price_tick_for (h : EngineHandle) (tick : TickEvent) (o : Order) : Int :=
  if o.type = OrderType.market then apply_spread h tick.price_tick o.side
  else apply_spread h o.price_tick o.side

/-- The order-scanning loop of `engine_step_tick` (`for i in 0..order_count`):
processes the slots in insertion order, threading the account state through
`execute_fill` and marking filled slots inactive.  Returns the account state
after the loop and the slot array before compaction. -/
def process_orders (h : EngineHandle) (tick : TickEvent) :
    List TrackedOrder → EngineHandle × List TrackedOrder
  | [] => (h, [])
  | t :: rest =>
    if t.active && should_fill_order t.order tick then
      let h' := execute_fill h t.order (fill_price_tick_for h tick t.order)
      let (h'', rest') := process_orders h' tick rest
      (h'', { t with active := false } :: rest')
    else
      let (h'', rest') := process_orders h tick rest
      (h'', t :: rest')

/-- `engine_step_tick` from `core/engine.c` (non-null arguments): records
`current_ts_ms` and `last_tick_price`, runs the fill loop, then compacts
the order array keeping the active slots in order. -/
def engine_step_tick (h : EngineHandle) (tick : TickEvent) : EngineHandle :=
  let h1 := { h with current_ts_ms := tick.ts_ms, last_tick_price := tick.price_tick }
  let hp := process_orders h1 tick h1.orders
  { hp.1 with orders := hp.2.filter (fun t => t.active) }

/-- `engine_place_order` from `core/engine.c` (non-null arguments).  The C
function checks only capacity (`order_count >= MAX_OPEN_ORDERS` → `-2`);
it performs no qty/side/price/duplicate-id validation.  Returns the C
error code together with the resulting state. -/
def engine_place_order (h : EngineHandle) (order : Order) : Int × EngineHandle :=
  if h.orders.length ≥ MAX_OPEN_ORDERS then (-2, h)
  else (0, { h with orders := h.orders ++ [{ order := order, active := true }] })

/-- The scan loop of `engine_cancel_order`: deactivates the first active
slot with the given id, returning the C error code (`0` found, `-1` not). -/
def cancel_scan (order_id : Nat) : List TrackedOrder → Int × List TrackedOrder
  | [] => (-1, [])
  | t :: rest =>
    if t.active && t.order.order_id = order_id then
      (0, { t with active := false } :: rest)
    else
      let (c, rest') := cancel_scan order_id rest
      (c, t :: rest')

/-- `engine_cancel_order` from `core/engine.c` (non-null handle). -/
def engine_cancel_order (h : EngineHandle) (order_id : Nat) : Int × EngineHandle :=
  let (c, orders') := cancel_scan order_id h.orders
  (c, { h with orders := orders' })

/-- The zeroed-then-initialised handle body shared by `engine_new` and
`engine_reset` in `core/engine.c`. -/
def init_handle (cfg : Config) : EngineHandle :=
  { config := cfg
    current_ts_ms := 0
    cash := cfg.initial_cash
    position := 0
    avg_entry_price := 0
    realized_pnl := 0
    orders := []
    last_tick_price := 0 }

/-- `engine_new` from `core/engine.c`.  A null `cfg` (here `none`) yields
`NULL`; otherwise the function performs NO validation of the config (no
`tick_size > 0` check, no finiteness check) and always returns a fresh
handle. -/
def engine_new (cfg : Option Config) : Option EngineHandle :=
  match cfg with
  | none => none
  | some c => some (init_handle c)

/-- `engine_reset` from `core/engine.c` (non-null handle): zeroes the state
and re-initialises it, preserving the config. -/
def engine_reset (h : EngineHandle) : EngineHandle :=
  init_handle h.config

/-- `engine_get_snapshot` from `core/engine.c` (non-null handle). -/
def engine_get_snapshot (h : EngineHandle) : Snapshot :=
  { ts_ms := h.current_ts_ms
    cash := h.cash
    position := h.position
    avg_entry_price := h.avg_entry_price
    realized_pnl := h.realized_pnl
    unrealized_pnl := calculate_unrealized_pnl h
    equity := h.cash + calculate_unrealized_pnl h }

/-- The loop body of the batch path: consume the four sequences in step,
invoking `engine_step_tick` on each index in order. -/
def step_batch_go (h : EngineHandle) :
    List Int → List Int → List Int → List Side → EngineHandle
  | t :: ts, p :: ps, q :: qs, s :: ss =>
    step_batch_go (engine_step_tick h ⟨t, p, q, s⟩) ts ps qs ss
  | _, _, _, _ => h

/-- Modelled from the spec: `step_batch` is implemented in the Rust
wrapper (`crates/ag-core/src/lib.rs`, `process_tick_batch`), which is not
part of the C kernel sources; per the spec it "accepts four equal-length
sequences and is exactly equivalent to invoking `step_tick` on each index
in order with the same account effects", failing with `length_mismatch`
when the sequences differ in length.  `none` is the `length_mismatch`
failure; on failure the handle is unchanged. -/
def engine_step_batch (h : EngineHandle) (timestamps price_ticks qtys : List Int)
    (sides : List Side) : Option EngineHandle :=
  if timestamps.length = price_ticks.length ∧ price_ticks.length = qtys.length ∧
     qtys.length = sides.length then
    some (step_batch_go h timestamps price_ticks qtys sides)
  else none

/-- Zips the four batch sequences into the tick events the per-tick path
would receive, truncating at the shortest. -/
def mk_ticks : List Int → List Int → List Int → List Side → List TickEvent
  | t :: ts, p :: ps, q :: qs, s :: ss => ⟨t, p, q, s⟩ :: mk_ticks ts ps qs ss
  | _, _, _, _ => []

/-- The per-tick reference path: N successive `engine_step_tick` calls. -/
def run_ticks (h : EngineHandle) (ticks : List TickEvent) : EngineHandle :=
  ticks.foldl engine_step_tick h

/-- The public snapshot shape of the spec (§6): `position` is real-valued. -/
structure PublicSnapshot where
  ts_ms : Int
  cash : ℚ
  position : ℚ
  avg_entry_price : ℚ
  realized_pnl : ℚ
  unrealized_pnl : ℚ
  equity : ℚ
deriving DecidableEq, Repr

/-- Modelled from the spec: the descaling boundary lives in the Rust
wrapper (`crates/ag-core/src/lib.rs` line 159,
`position: snap.position as f64 / 1000000.0`), which is not part of the C
kernel sources; per the spec the public snapshot reports `position` in
real units, i.e. `position_micro / 1e6`, and every other field verbatim. -/
def public_get_snapshot (h : EngineHandle) : PublicSnapshot :=
  let snap := engine_get_snapshot h
  { ts_ms := snap.ts_ms
    cash := snap.cash
    position := (snap.position : ℚ) / 1000000
    avg_entry_price := snap.avg_entry_price
    realized_pnl := snap.realized_pnl
    unrealized_pnl := snap.unrealized_pnl
    equity := snap.equity }

/-- One caller-visible mutating operation on a live handle. -/
inductive Op where
  | place (o : Order)
  | cancel (order_id : Nat)
  | tick (t : TickEvent)
  | reset
deriving DecidableEq, Repr

/-- Effect of one operation on the handle state (failed placements and
cancels leave the state as the C code leaves it). -/
def run_op (h : EngineHandle) : Op → EngineHandle
  | Op.place o => (engine_place_order h o).2
  | Op.cancel oid => (engine_cancel_order h oid).2
  | Op.tick t => engine_step_tick h t
  | Op.reset => engine_reset h

/-- State after a sequence of operations on a freshly created handle. -/
def run (cfg : Config) (ops : List Op) : EngineHandle :=
  ops.foldl run_op (init_handle cfg)

/-! ## Concrete inputs used by the verification -/

/-- The spec's reference configuration (§8): cash 100000, tick_size 1,
zero fees and spread. -/
def cfg_demo : Config :=
  { maker_fee_bps := 0, taker_fee_bps := 0, spread_bps := 0,
    initial_cash := 100000, tick_size := 1 }

/-- A config the spec calls invalid: `tick_size = 0`. -/
def cfg_zero_tick : Config :=
  { maker_fee_bps := 0, taker_fee_bps := 0, spread_bps := 0,
    initial_cash := 100000, tick_size := 0 }

/-- A handle with 1% spread (100 bps). -/
def h_spread : EngineHandle :=
  init_handle { maker_fee_bps := 0, taker_fee_bps := 0, spread_bps := 100,
                initial_cash := 100000, tick_size := 1 }

/-- An order the spec calls invalid: limit with `qty = -5 ≤ 0` and
`price_tick = 0 ≤ 0`. -/
def bad_order : Order :=
  { order_id := 7, type := OrderType.limit, side := Side.buy, qty := -5, price_tick := 0 }

/-- Market sell of 1.0 unit (micro-units). -/
def sell_one (id : Nat) : Order :=
  { order_id := id, type := OrderType.market, side := Side.sell, qty := 1000000,
    price_tick := 0 }

/-- Open a short of 1.0 at tick 100, then sell 1.0 more at tick 110:
the second fill ADDS to a short position. -/
def short_add_seq : List Op :=
  [Op.place (sell_one 1),
   Op.tick { ts_ms := 1, price_tick := 100, qty := 0, side := Side.buy },
   Op.place (sell_one 2),
   Op.tick { ts_ms := 2, price_tick := 110, qty := 0, side := Side.buy }]

/-- Market buy of 1.5 units used to open a long position. -/
def buy_order_w : Order :=
  { order_id := 1, type := OrderType.market, side := Side.buy, qty := 1500000,
    price_tick := 0 }

/-- Open a long of 1.5 at tick 100 (used as a concrete witness state). -/
def long_open_seq : List Op :=
  [Op.place buy_order_w,
   Op.tick { ts_ms := 1, price_tick := 100, qty := 0, side := Side.buy }]

/-- A live limit buy far below the market, so it never fills. -/
def c10_order : Order :=
  { order_id := 5, type := OrderType.limit, side := Side.buy, qty := 1000000,
    price_tick := 10 }

/-- Fill the book to capacity with copies of `c10_order`, then cancel one. -/
def c10_ops : List Op :=
  List.replicate MAX_OPEN_ORDERS (Op.place c10_order) ++ [Op.cancel 5]

/-- A further order whose placement is probed against the full book. -/
def c10_probe : Order :=
  { order_id := 9999, type := OrderType.market, side := Side.buy, qty := 1000000,
    price_tick := 0 }

/-- A tick at 100 that fills none of the book's limit buys at 10. -/
def c10_tick : TickEvent :=
  { ts_ms := 3, price_tick := 100, qty := 0, side := Side.buy }

/-! ## Frame lemmas -/

theorem execute_fill_config (h : EngineHandle) (o : Order) (p : Int) :
    (execute_fill h o p).config = h.config := by
  simp only [execute_fill]
  split_ifs <;> rfl

theorem execute_fill_ts (h : EngineHandle) (o : Order) (p : Int) :
    (execute_fill h o p).current_ts_ms = h.current_ts_ms := by
  simp only [execute_fill]
  split_ifs <;> rfl

theorem execute_fill_last (h : EngineHandle) (o : Order) (p : Int) :
    (execute_fill h o p).last_tick_price = h.last_tick_price := by
  simp only [execute_fill]
  split_ifs <;> rfl

theorem execute_fill_orders (h : EngineHandle) (o : Order) (p : Int) :
    (execute_fill h o p).orders = h.orders := by
  simp only [execute_fill]
  split_ifs <;> rfl

theorem fill_price_tick_for_congr {g h : EngineHandle} (e : g.config = h.config)
    (tick : TickEvent) (o : Order) :
    fill_price_tick_for g tick o = fill_price_tick_for h tick o := by
  simp [fill_price_tick_for, apply_spread, e]

theorem foldl_execute_config (f : TrackedOrder → Int) (l : List TrackedOrder) :
    ∀ g : EngineHandle,
      (l.foldl (fun a t => execute_fill a t.order (f t)) g).config = g.config := by
  induction l with
  | nil => intro g; rfl
  | cons t rest ih =>
    intro g
    simp only [List.foldl_cons, ih, execute_fill_config]

theorem foldl_execute_ts (f : TrackedOrder → Int) (l : List TrackedOrder) :
    ∀ g : EngineHandle,
      (l.foldl (fun a t => execute_fill a t.order (f t)) g).current_ts_ms =
        g.current_ts_ms := by
  induction l with
  | nil => intro g; rfl
  | cons t rest ih =>
    intro g
    simp only [List.foldl_cons, ih, execute_fill_ts]

theorem foldl_execute_last (f : TrackedOrder → Int) (l : List TrackedOrder) :
    ∀ g : EngineHandle,
      (l.foldl (fun a t => execute_fill a t.order (f t)) g).last_tick_price =
        g.last_tick_price := by
  induction l with
  | nil => intro g; rfl
  | cons t rest ih =>
    intro g
    simp only [List.foldl_cons, ih, execute_fill_last]

/-- The `engine_step_tick` order loop, characterised declaratively: it is
the left fold of `execute_fill` over the eligible slots (in insertion
order), together with the marking of every filled slot as inactive. -/
theorem process_orders_spec (tick : TickEvent) (l : List TrackedOrder) :
    ∀ (g h : EngineHandle), g.config = h.config →
      process_orders g tick l =
        ((l.filter fun t => t.active && should_fill_order t.order tick).foldl
            (fun a t => execute_fill a t.order (fill_price_tick_for h tick t.order)) g,
          l.map fun t =>
            if t.active && should_fill_order t.order tick then
              { t with active := false } else t) := by
  induction l with
  | nil => intro g h _; rfl
  | cons t rest ih =>
    intro g h e
    by_cases hc : (t.active && should_fill_order t.order tick) = true
    · have e' : (execute_fill g t.order (fill_price_tick_for h tick t.order)).config
          = h.config := by rw [execute_fill_config]; exact e
      simp only [process_orders, hc, if_pos, List.filter_cons, List.map_cons,
        List.foldl_cons, fill_price_tick_for_congr e, ih _ h e']
    · simp only [process_orders, hc, if_neg, Bool.false_eq_true, List.filter_cons,
        List.map_cons, ih _ h e]
      simp [hc]

/-- Compacting the marked slot array keeps exactly the previously active,
unfilled slots, in order. -/
theorem mark_filter (tick : TickEvent) (l : List TrackedOrder) :
    ((l.map fun t =>
        if t.active && should_fill_order t.order tick then
          { t with active := false } else t).filter fun t => t.active) =
      l.filter fun t => t.active && !should_fill_order t.order tick := by
  induction l with
  | nil => rfl
  | cons t rest ih =>
    simp only [List.map_cons, List.filter_cons, ih]
    cases ha : t.active <;> cases hf : should_fill_order t.order tick <;>
      simp [ha, hf]

/-- `engine_step_tick`, characterised declaratively: record the tick,
fold `execute_fill` over the eligible slots in insertion order, keep the
active unfilled slots in order. -/
theorem step_tick_spec (h : EngineHandle) (tick : TickEvent) :
    engine_step_tick h tick =
      { (h.orders.filter (fun t => t.active && should_fill_order t.order tick)).foldl
          (fun a t => execute_fill a t.order (fill_price_tick_for h tick t.order))
          { h with current_ts_ms := tick.ts_ms, last_tick_price := tick.price_tick } with
        orders := h.orders.filter (fun t => t.active && !should_fill_order t.order tick) } := by
  simp only [engine_step_tick,
    process_orders_spec tick h.orders
      { h with current_ts_ms := tick.ts_ms, last_tick_price := tick.price_tick } h rfl,
    mark_filter]

theorem engine_step_tick_config (h : EngineHandle) (tick : TickEvent) :
    (engine_step_tick h tick).config = h.config := by
  simp only [engine_step_tick,
    process_orders_spec tick _ _ _ (rfl : EngineHandle.config _ = _)]
  exact foldl_execute_config _ _ _

theorem cancel_scan_length (oid : Nat) (l : List TrackedOrder) :
    (cancel_scan oid l).2.length = l.length := by
  induction l with
  | nil => rfl
  | cons t rest ih =>
    by_cases hc : (t.active && t.order.order_id = oid) = true
    · simp [cancel_scan, hc]
    · simp [cancel_scan, hc, ih]

theorem run_op_config (h : EngineHandle) (op : Op) :
    (run_op h op).config = h.config := by
  cases op with
  | place o =>
    simp only [run_op, engine_place_order]
    split_ifs <;> rfl
  | cancel oid => rfl
  | tick t => exact engine_step_tick_config h t
  | reset => rfl

theorem run_config (cfg : Config) (ops : List Op) : (run cfg ops).config = cfg := by
  suffices go : ∀ (l : List Op) (h : EngineHandle), (l.foldl run_op h).config = h.config by
    exact go ops (init_handle cfg)
  intro l
  induction l with
  | nil => intro h; rfl
  | cons op rest ih =>
    intro h
    simp only [List.foldl_cons, ih, run_op_config]

theorem filter_replicate_tracked (n : Nat) (t : TrackedOrder) (p : TrackedOrder → Bool) :
    (List.replicate n t).filter p = if p t then List.replicate n t else [] := by
  induction n with
  | zero => simp
  | succ m ih =>
    by_cases hp : p t = true
    · simp [List.replicate_succ, List.filter_cons, hp, ih]
    · simp [List.replicate_succ, List.filter_cons, hp, ih]

/-- Folding `n` successful placements of the same order appends `n` active
slots, as long as capacity is not exceeded. -/
theorem places_fold (o : Order) (n : Nat) :
    ∀ h : EngineHandle, h.orders.length + n ≤ MAX_OPEN_ORDERS →
      (List.replicate n (Op.place o)).foldl run_op h =
        { h with orders := h.orders ++ List.replicate n { order := o, active := true } } := by
  induction n with
  | zero => intro h _; simp
  | succ m ih =>
    intro h hlen
    have hlt : ¬ h.orders.length ≥ MAX_OPEN_ORDERS := by omega
    have step : run_op h (Op.place o) =
        { h with orders := h.orders ++ [{ order := o, active := true }] } := by
      simp [run_op, engine_place_order, hlt]
    have hlen' :
        ({ h with orders := h.orders ++ [{ order := o, active := true }] } :
          EngineHandle).orders.length + m ≤ MAX_OPEN_ORDERS := by
      simp only [List.length_append, List.length_cons, List.length_nil]
      omega
    calc (List.replicate (m + 1) (Op.place o)).foldl run_op h
        = (List.replicate m (Op.place o)).foldl run_op
            { h with orders := h.orders ++ [{ order := o, active := true }] } := by
          rw [List.replicate_succ, List.foldl_cons, step]
      _ = { h with orders := h.orders ++
              List.replicate (m + 1) { order := o, active := true } } := by
          rw [ih _ hlen']
          simp [List.replicate_succ, List.append_assoc]

/-- The batch loop is the fold of `engine_step_tick` over the zipped ticks. -/
theorem step_batch_go_eq :
    ∀ (ts ps qs : List Int) (ss : List Side) (h : EngineHandle),
      step_batch_go h ts ps qs ss = run_ticks h (mk_ticks ts ps qs ss) := by
  intro ts
  induction ts with
  | nil => intro ps qs ss h; cases ps <;> cases qs <;> cases ss <;> rfl
  | cons t ts ih =>
    intro ps qs ss h
    cases ps with
    | nil => rfl
    | cons p ps =>
      cases qs with
      | nil => rfl
      | cons q qs =>
        cases ss with
        | nil => rfl
        | cons s ss =>
          simp only [step_batch_go, mk_ticks, run_ticks, List.foldl_cons]
          exact ih ps qs ss (engine_step_tick h ⟨t, p, q, s⟩)

/-! ## The claims -/

/-- C8 (counterexample): `engine_new` performs no config validation: a
config with `tick_size = 0 ≤ 0` is accepted and a handle is returned,
refuting "new fails with invalid_config when tick_size ≤ 0". -/
theorem c8_counterexample :
    cfg_zero_tick.tick_size ≤ 0 ∧
    engine_new (some cfg_zero_tick) = some (init_handle cfg_zero_tick) := by
  constructor
  · decide
  · rfl

/-- C8 (amended): `engine_new` fails only on a null config; it validates
nothing, and for every config — `tick_size ≤ 0` or not — it returns a
handle with `cash = initial_cash`, `position = 0`, `avg_entry_price = 0`,
`realized_pnl = 0`, `current_ts_ms = 0`, `last_tick_price = 0` and an
empty open-order set. -/
theorem c8_new_initial_state (cfg : Config) :
    engine_new (some cfg) =
      some { config := cfg, current_ts_ms := 0, cash := cfg.initial_cash,
             position := 0, avg_entry_price := 0, realized_pnl := 0,
             orders := [], last_tick_price := 0 } ∧
    engine_new none = none :=
  ⟨rfl, rfl⟩

/-- C7 (counterexample): `engine_place_order` accepts an order with
`qty = -5 ≤ 0` and limit `price_tick = 0 ≤ 0` (return code 0), and
accepts the same `order_id` a second time, refuting the claimed
invalid-order and duplicate-id failures. -/
theorem c7_counterexample :
    (engine_place_order (init_handle cfg_demo) bad_order).1 = 0 ∧
    (engine_place_order
      (engine_place_order (init_handle cfg_demo) bad_order).2 bad_order).1 = 0 := by
  decide

/-- C7 (amended): `engine_place_order` checks only capacity: with 1024
slots stored it fails with order-book-full (`-2`) leaving the state
unchanged, and otherwise it succeeds and appends the order — with no
qty/side/price/duplicate-id validation of any kind. -/
theorem c7_place_order_capacity_only (h : EngineHandle) (o : Order) :
    (h.orders.length ≥ MAX_OPEN_ORDERS → engine_place_order h o = (-2, h)) ∧
    (h.orders.length < MAX_OPEN_ORDERS →
      engine_place_order h o =
        (0, { h with orders := h.orders ++ [{ order := o, active := true }] })) := by
  constructor
  · intro hge
    simp [engine_place_order, hge]
  · intro hlt
    simp [engine_place_order, not_le.mpr hlt]

/-- C7 (witness): on a fresh handle the capacity check passes and the
(unvalidated) order is appended. -/
theorem c7_witness :
    (init_handle cfg_demo).orders.length < MAX_OPEN_ORDERS ∧
    engine_place_order (init_handle cfg_demo) bad_order =
      (0, { init_handle cfg_demo with
              orders := (init_handle cfg_demo).orders ++
                [{ order := bad_order, active := true }] }) :=
  ⟨by decide, (c7_place_order_capacity_only (init_handle cfg_demo) bad_order).2 (by decide)⟩

/-- C4 (counterexample): for the negative base tick −100 with 100 bps
spread, `apply_spread` (which omits the absolute value) returns a buy
fill of −101, while the claimed formula `price_tick + ceil(|price_tick| ×
spread_bps/10000)` gives −99. -/
theorem c4_counterexample :
    apply_spread h_spread (-100) Side.buy = -101 ∧
    (-100 : Int) +
      ⌈((|(-100 : Int)| : Int) : ℚ) * (h_spread.config.spread_bps / 10000)⌉ = -99 := by
  constructor
  · norm_num [apply_spread, h_spread, init_handle]
    rfl
  · norm_num [h_spread, init_handle]

/-- C4 (amended): for a non-negative base `price_tick` and non-negative
`spread_bps`, the offset is `ceil(price_tick × spread_bps/10000)` — which
then coincides with `ceil(|price_tick| × spread_bps/10000)` and is ≥ 0 —
a buy fills at `price_tick + offset` and a sell at `price_tick − offset`;
the same `apply_spread` is applied to the market base (tick price) and the
limit base (order price).  (For negative `price_tick` the code omits the
absolute value, as the counterexample shows.) -/
theorem c4_spread_offset (h : EngineHandle) (p : Int)
    (hp : 0 ≤ p) (hs : 0 ≤ h.config.spread_bps) :
    0 ≤ ⌈(p : ℚ) * (h.config.spread_bps / 10000)⌉ ∧
    ⌈(p : ℚ) * (h.config.spread_bps / 10000)⌉ =
      ⌈((|p| : Int) : ℚ) * (h.config.spread_bps / 10000)⌉ ∧
    apply_spread h p Side.buy = p + ⌈(p : ℚ) * (h.config.spread_bps / 10000)⌉ ∧
    apply_spread h p Side.sell = p - ⌈(p : ℚ) * (h.config.spread_bps / 10000)⌉ ∧
    (∀ (tick : TickEvent) (o : Order),
      fill_price_tick_for h tick o =
        if o.type = OrderType.market then apply_spread h tick.price_tick o.side
        else apply_spread h o.price_tick o.side) := by
  refine ⟨?_, ?_, rfl, rfl, fun tick o => rfl⟩
  · exact Int.ceil_nonneg
      (mul_nonneg (by exact_mod_cast hp) (div_nonneg hs (by norm_num)))
  · rw [abs_of_nonneg hp]

/-- C4 (witness): at base tick 100 with 100 bps spread the hypotheses
hold and the buy fill carries the ceiling offset. -/
theorem c4_witness :
    (0 : Int) ≤ 100 ∧ (0 : ℚ) ≤ h_spread.config.spread_bps ∧
    apply_spread h_spread 100 Side.buy =
      100 + ⌈((100 : Int) : ℚ) * (h_spread.config.spread_bps / 10000)⌉ :=
  ⟨by decide, by norm_num [h_spread, init_handle],
    (c4_spread_offset h_spread 100 (by decide)
      (by norm_num [h_spread, init_handle])).2.2.1⟩

/-- C1 (code bug): selling 1.0 at tick 110 against a short position of
1.0 opened at tick 100 takes the "adding to position" branch of
`execute_fill`, which computes `(old × avg + q × p_t)/new` with the
POSITIVE fill quantity instead of the claimed signed `Δ = −q`; the code
leaves `avg_entry_price = −5`, while the claimed weighted-average formula
gives 105, so the resulting average is outside [100, 110] and even
negative. -/
theorem c1_short_add_avg_entry_bug :
    (run cfg_demo short_add_seq).position = -2000000 ∧
    (run cfg_demo short_add_seq).avg_entry_price = -5 ∧
    ((-1000000 : ℚ) * 100 + (-1000000) * 110) / ((-2000000 : ℚ)) = 105 ∧
    (run cfg_demo short_add_seq).avg_entry_price ≠
      ((-1000000 : ℚ) * 100 + (-1000000) * 110) / ((-2000000 : ℚ)) := by
  refine ⟨rfl, ?_, by norm_num, ?_⟩ <;>
    norm_num [run, short_add_seq, run_op, engine_place_order, engine_step_tick,
      process_orders, execute_fill, calculate_fee, apply_spread, fill_price_tick_for,
      should_fill_order, init_handle, cfg_demo, sell_one, MAX_OPEN_ORDERS]

/-- C9: after any operation sequence, the public snapshot (the Rust
boundary, modelled from the spec) reports the position descaled by 1e6,
while the C-level snapshot field is the raw micro-unit position; hence
`public position × 1e6` recovers the stored micro-units exactly and the
scaling is not observable publicly. -/
theorem c9_position_descaled (cfg : Config) (ops : List Op) :
    (public_get_snapshot (run cfg ops)).position =
      ((engine_get_snapshot (run cfg ops)).position : ℚ) / 1000000 ∧
    (engine_get_snapshot (run cfg ops)).position = (run cfg ops).position ∧
    (public_get_snapshot (run cfg ops)).position * 1000000 =
      ((run cfg ops).position : ℚ) := by
  refine ⟨rfl, rfl, ?_⟩
  show ((run cfg ops).position : ℚ) / 1000000 * 1000000 = ((run cfg ops).position : ℚ)
  rw [div_mul_cancel₀]
  norm_num

/-- C2: every fill charges the taker rate on the notional
`N = (p_t × tick_size) × (q/1e6)`: a buy pays `N + fee` out of cash and a
sell receives `N − fee`; the result is unchanged under any
`maker_fee_bps`, and `realized_pnl` is gross — identical to the
realized P&L of the same fill under zero fees. -/
theorem c2_taker_fee_cash_gross_pnl (h : EngineHandle) (o : Order) (fpt : Int) :
    (o.side = Side.buy →
      (execute_fill h o fpt).cash =
        h.cash - ((fpt : ℚ) * h.config.tick_size * ((o.qty : ℚ) / 1000000) +
          (fpt : ℚ) * h.config.tick_size * ((o.qty : ℚ) / 1000000) *
            (h.config.taker_fee_bps / 10000))) ∧
    (o.side = Side.sell →
      (execute_fill h o fpt).cash =
        h.cash + ((fpt : ℚ) * h.config.tick_size * ((o.qty : ℚ) / 1000000) -
          (fpt : ℚ) * h.config.tick_size * ((o.qty : ℚ) / 1000000) *
            (h.config.taker_fee_bps / 10000))) ∧
    (∀ m : ℚ,
      execute_fill { h with config := { h.config with maker_fee_bps := m } } o fpt =
        { execute_fill h o fpt with config := { h.config with maker_fee_bps := m } }) ∧
    (execute_fill h o fpt).realized_pnl =
      (execute_fill
        { h with config := { h.config with maker_fee_bps := 0, taker_fee_bps := 0 } }
        o fpt).realized_pnl := by
  refine ⟨?_, ?_, ?_, ?_⟩
  · intro hb
    simp only [execute_fill, calculate_fee, hb]
    split_ifs <;> first | rfl | (exfalso; assumption)
  · intro hs
    simp only [execute_fill, calculate_fee, hs]
    split_ifs <;> first | rfl | (exfalso; assumption)
  · intro m
    cases o.side <;> simp only [execute_fill, calculate_fee] <;>
      split_ifs <;> first | rfl | (exfalso; assumption)
  · cases o.side <;> simp only [execute_fill, calculate_fee] <;>
      split_ifs <;> first | rfl | (exfalso; assumption)

/-- C2 (witness): a concrete market buy of 1.5 units filled at tick 100
pays notional plus taker fee out of cash. -/
theorem c2_witness :
    buy_order_w.side = Side.buy ∧
    (execute_fill (init_handle cfg_demo) buy_order_w 100).cash =
      (init_handle cfg_demo).cash -
        (((100 : Int) : ℚ) * (init_handle cfg_demo).config.tick_size *
            ((buy_order_w.qty : ℚ) / 1000000) +
          ((100 : Int) : ℚ) * (init_handle cfg_demo).config.tick_size *
            ((buy_order_w.qty : ℚ) / 1000000) *
            ((init_handle cfg_demo).config.taker_fee_bps / 10000)) :=
  ⟨rfl, (c2_taker_fee_cash_gross_pnl (init_handle cfg_demo) buy_order_w 100).1 rfl⟩

/-- C3: `step_batch` (modelled from the spec, since it lives in the Rust
wrapper) on four equal-length sequences yields exactly the state — and
hence the snapshot — of the N successive `step_tick` calls on the zipped
data, and fails with `length_mismatch` (here `none`) when the lengths
differ. -/
theorem c3_batch_equivalence (h : EngineHandle) (ts ps qs : List Int) (ss : List Side) :
    (ts.length = ps.length ∧ ps.length = qs.length ∧ qs.length = ss.length →
      engine_step_batch h ts ps qs ss = some (run_ticks h (mk_ticks ts ps qs ss)) ∧
      ∀ hb, engine_step_batch h ts ps qs ss = some hb →
        engine_get_snapshot hb = engine_get_snapshot (run_ticks h (mk_ticks ts ps qs ss))) ∧
    (¬(ts.length = ps.length ∧ ps.length = qs.length ∧ qs.length = ss.length) →
      engine_step_batch h ts ps qs ss = none) := by
  constructor
  · intro hlen
    have heq : engine_step_batch h ts ps qs ss =
        some (run_ticks h (mk_ticks ts ps qs ss)) := by
      simp only [engine_step_batch, if_pos hlen, step_batch_go_eq]
    refine ⟨heq, fun hb hsome => ?_⟩
    rw [heq] at hsome
    exact congrArg engine_get_snapshot (Option.some.inj hsome).symm
  · intro hlen
    simp only [engine_step_batch, if_neg hlen]

/-- C3 (witness): a concrete two-tick batch agrees with two `step_tick`
calls (hypothesis: the four sequences have equal length 2). -/
theorem c3_witness :
    ([1, 2] : List Int).length = ([100, 110] : List Int).length ∧
    engine_step_batch (init_handle cfg_demo) [1, 2] [100, 110] [0, 0]
      [Side.buy, Side.sell] =
      some (run_ticks (init_handle cfg_demo)
        (mk_ticks [1, 2] [100, 110] [0, 0] [Side.buy, Side.sell])) :=
  ⟨rfl,
    ((c3_batch_equivalence (init_handle cfg_demo) [1, 2] [100, 110] [0, 0]
      [Side.buy, Side.sell]).1 (by decide)).1⟩

/-- C6: after every operation sequence from a fresh handle, the snapshot
satisfies `equity = cash + unrealized_pnl`; `unrealized_pnl = 0` when the
position is zero, and otherwise equals
`(position/1e6) × (last_tick_price − avg_entry_price) × tick_size`,
computed solely from position, average entry and last tick price. -/
theorem c6_conservation (cfg : Config) (ops : List Op) :
    (engine_get_snapshot (run cfg ops)).equity =
      (engine_get_snapshot (run cfg ops)).cash +
        (engine_get_snapshot (run cfg ops)).unrealized_pnl ∧
    ((engine_get_snapshot (run cfg ops)).position = 0 →
      (engine_get_snapshot (run cfg ops)).unrealized_pnl = 0) ∧
    ((engine_get_snapshot (run cfg ops)).position ≠ 0 →
      (engine_get_snapshot (run cfg ops)).unrealized_pnl =
        (((run cfg ops).position : ℚ) / 1000000) *
          (((run cfg ops).last_tick_price : ℚ) - (run cfg ops).avg_entry_price) *
          cfg.tick_size) := by
  refine ⟨rfl, ?_, ?_⟩
  · intro hz
    have hz' : (run cfg ops).position = 0 := hz
    show calculate_unrealized_pnl (run cfg ops) = 0
    simp [calculate_unrealized_pnl, hz']
  · intro hnz
    have hnz' : (run cfg ops).position ≠ 0 := hnz
    show calculate_unrealized_pnl (run cfg ops) =
      (((run cfg ops).position : ℚ) / 1000000) *
        (((run cfg ops).last_tick_price : ℚ) - (run cfg ops).avg_entry_price) *
        cfg.tick_size
    have hts : (run cfg ops).config.tick_size = cfg.tick_size := by
      rw [run_config]
    simp only [calculate_unrealized_pnl, if_neg hnz', hts]
    ring

/-- C5: `step_tick` first records `current_ts_ms` and `last_tick_price`,
then equals the left fold of `execute_fill` over the eligible orders in
insertion order (so later fills observe earlier fills' account state),
with the surviving open-order set the in-order compaction of the active,
unfilled slots; a market order is always eligible, a buy limit iff
`tick.price_tick ≤ order.price_tick`, a sell limit iff
`order.price_tick ≤ tick.price_tick`, and the fill base is the tick price
for market orders and the limit price for limit orders, both through
`apply_spread`. -/
theorem c5_step_tick_insertion_order (h : EngineHandle) (tick : TickEvent) :
    engine_step_tick h tick =
      { (h.orders.filter (fun t => t.active && should_fill_order t.order tick)).foldl
          (fun a t => execute_fill a t.order (fill_price_tick_for h tick t.order))
          { h with current_ts_ms := tick.ts_ms, last_tick_price := tick.price_tick } with
        orders := h.orders.filter (fun t => t.active && !should_fill_order t.order tick) } ∧
    (engine_step_tick h tick).current_ts_ms = tick.ts_ms ∧
    (engine_step_tick h tick).last_tick_price = tick.price_tick ∧
    (∀ o : Order, should_fill_order o tick = true ↔
      (o.type = OrderType.market ∨
       (o.type = OrderType.limit ∧ o.side = Side.buy ∧ tick.price_tick ≤ o.price_tick) ∨
       (o.type = OrderType.limit ∧ o.side = Side.sell ∧ o.price_tick ≤ tick.price_tick))) ∧
    (∀ o : Order, fill_price_tick_for h tick o =
      if o.type = OrderType.market then apply_spread h tick.price_tick o.side
      else apply_spread h o.price_tick o.side) := by
  refine ⟨step_tick_spec h tick, ?_, ?_, ?_, fun o => rfl⟩
  · simp only [engine_step_tick,
      process_orders_spec tick h.orders
        { h with current_ts_ms := tick.ts_ms, last_tick_price := tick.price_tick } h rfl]
    rw [foldl_execute_ts]
  · simp only [engine_step_tick,
      process_orders_spec tick h.orders
        { h with current_ts_ms := tick.ts_ms, last_tick_price := tick.price_tick } h rfl]
    rw [foldl_execute_last]
  · intro o
    rcases o with ⟨oid, ty, side, q, p⟩
    cases ty <;> cases side <;>
      simp [should_fill_order, ge_iff_le, decide_eq_true_eq]

/-- C5 (witness): on a concrete fresh handle and tick, stepping records
the tick's timestamp and price. -/
theorem c5_witness :
    (engine_step_tick (init_handle cfg_demo) c10_tick).current_ts_ms =
      c10_tick.ts_ms ∧
    (engine_step_tick (init_handle cfg_demo) c10_tick).last_tick_price =
      c10_tick.price_tick :=
  ⟨(c5_step_tick_insertion_order (init_handle cfg_demo) c10_tick).2.1,
   (c5_step_tick_insertion_order (init_handle cfg_demo) c10_tick).2.2.1⟩

/-- C6 (witness): after opening a long of 1.5 at tick 100 the position is
nonzero and the unrealized P&L formula applies. -/
theorem c6_witness :
    (engine_get_snapshot (run cfg_demo long_open_seq)).position ≠ 0 ∧
    (engine_get_snapshot (run cfg_demo long_open_seq)).unrealized_pnl =
      (((run cfg_demo long_open_seq).position : ℚ) / 1000000) *
        (((run cfg_demo long_open_seq).last_tick_price : ℚ) -
          (run cfg_demo long_open_seq).avg_entry_price) *
        cfg_demo.tick_size :=
  ⟨by decide, (c6_conservation cfg_demo long_open_seq).2.2 (by decide)⟩

set_option maxRecDepth 8000 in
/-- Reaching the C10 scenario: 1024 placements fill the book, then one
cancel deactivates the first slot without removing it. -/
theorem c10_state_eq :
    run cfg_demo c10_ops =
      { init_handle cfg_demo with orders :=
          ({ order := c10_order, active := false } ::
            List.replicate 1023 { order := c10_order, active := true }) } := by
  show List.foldl run_op (init_handle cfg_demo)
      (List.replicate MAX_OPEN_ORDERS (Op.place c10_order) ++ [Op.cancel 5]) = _
  rw [List.foldl_append,
    places_fold c10_order MAX_OPEN_ORDERS (init_handle cfg_demo) (by decide)]
  simp only [List.foldl_cons, List.foldl_nil, run_op, engine_cancel_order,
    init_handle, List.nil_append]
  rw [show List.replicate MAX_OPEN_ORDERS
        ({ order := c10_order, active := true } : TrackedOrder) =
      ({ order := c10_order, active := true } ::
        List.replicate 1023 { order := c10_order, active := true }) from rfl]
  rw [(by decide : cancel_scan 5
      ({ order := c10_order, active := true } ::
        List.replicate 1023 { order := c10_order, active := true }) =
      (0, { order := c10_order, active := false } ::
        List.replicate 1023 { order := c10_order, active := true }))]

set_option maxRecDepth 8000 in
/-- The next `step_tick` (here at a price that fills nothing) compacts
the cancelled slot away. -/
theorem c10_after_tick :
    engine_step_tick (run cfg_demo c10_ops) c10_tick =
      { init_handle cfg_demo with
          current_ts_ms := 3
          last_tick_price := 100
          orders := List.replicate 1023 { order := c10_order, active := true } } := by
  rw [c10_state_eq, step_tick_spec]
  decide

set_option maxRecDepth 8000 in
/-- C10: cancelling never shrinks the stored slot array (the cancelled
order still counts toward the 1024-slot capacity); concretely, after
1024 placements and one cancel only 1023 orders are live yet a further
placement fails with order-book-full and leaves the state unchanged;
the slot is reclaimed exactly by the compaction of the next `step_tick`,
after which the placement succeeds. -/
theorem c10_cancelled_slot_counts_toward_capacity :
    (∀ (h : EngineHandle) (oid : Nat),
        (engine_cancel_order h oid).2.orders.length = h.orders.length) ∧
    (run cfg_demo c10_ops).orders.length = MAX_OPEN_ORDERS ∧
    ((run cfg_demo c10_ops).orders.filter (fun t => t.active)).length = 1023 ∧
    1023 < MAX_OPEN_ORDERS ∧
    engine_place_order (run cfg_demo c10_ops) c10_probe = (-2, run cfg_demo c10_ops) ∧
    (engine_step_tick (run cfg_demo c10_ops) c10_tick).orders.length = 1023 ∧
    (engine_place_order (engine_step_tick (run cfg_demo c10_ops) c10_tick)
      c10_probe).1 = 0 := by
  refine ⟨?_, ?_, ?_, by decide, ?_, ?_, ?_⟩
  · intro h oid
    simp [engine_cancel_order, cancel_scan_length]
  · rw [c10_state_eq]
    decide
  · rw [c10_state_eq]
    decide
  · rw [c10_state_eq]
    simp only [engine_place_order]
    split_ifs with hc
    · rfl
    · exact (hc (by decide)).elim
  · rw [c10_after_tick]
    decide
  · rw [c10_after_tick]
    simp only [engine_place_order]
    split_ifs with hc
    · exact absurd hc (by decide)
    · rfl

end AgKernel
